import Mathlib

/-!
Verification of the LOCI generic object layer (`of_object.c`).

The object layer manipulates zero-copy views (`of_object_t`) into a shared,
growable wire buffer (`of_wire_buffer_t`).  The wire-buffer module and the
generated per-type accessors are external to the file under verification; they
are modelled here from the design specification, and every such definition is
marked `Modelled from the spec:` in its doc comment.  Everything else is a
direct shallow embedding of the C functions in `of_object.c`.

Pointer-level conventions of the embedding:
* a C `NULL` object pointer is represented by `Option.none` (or by the empty
  parent chain, see below);
* the C parent pointer chain `obj -> obj->parent -> ...` is represented as a
  `List Obj` whose head is the object itself and whose last element is the
  root; the empty list plays the role of the `NULL` pointer ending the chain;
* the single wire buffer shared by a parent chain is threaded explicitly as a
  `WireBuffer` value, and each object's `hasWbuf` flag models whether its
  `wire_object.wbuf` pointer is non-NULL;
* machine `int`s are modelled as `Int` (no overflow occurs in the scenarios
  covered by the claims), byte cells as `Nat`;
* a `LOCI_ASSERT` whose failure a claim observes is modelled by the `.fatal`
  outcome of `CResult`; other asserts are debug-only checks whose success is
  reflected in theorem hypotheses.
-/

namespace OfObject

/-- LOCI status codes: OF_ERROR_NONE, OF_ERROR_PARAM, OF_ERROR_RESOURCE,
OF_ERROR_RANGE, OF_ERROR_PARSE. -/
inductive OfError where
  | ok
  | param
  | resource
  | range
  | parse
deriving DecidableEq

/-- Result of a C routine guarded by `LOCI_ASSERT`: either a fatal assertion
abort (no state is produced) or a normal return. -/
inductive CResult (α : Type) where
  | fatal
  | ret (a : α)
deriving DecidableEq

/-- Modelled from the spec: the wire buffer (`of_wire_buffer_t`, external to
`of_object.c`) is a contiguous byte region with an allocated capacity
(`alloc_bytes`) and a current logical extent (`current_bytes`). -/
structure WireBuffer where
  bytes : Int → Nat
  alloc_bytes : Int
  current_bytes : Int

/-- Shallow embedding of `of_object_t` as used by `of_object.c`.
`hasWbuf` models `wire_object.wbuf != NULL`, `obj_offset` models
`wire_object.obj_offset`, `owned` models `wire_object.owned`.
The generated accessor function pointers are modelled from the spec:
`wire_length_set = some rel` means a length-writer exists that persists the
object's length into the wire bytes at offset `rel` relative to the object;
`wire_type_set = some (rel, tag)` means a type-writer exists that persists the
tag value at relative offset `rel`; `wire_type_get = some id` means a
type-reader exists and reading the wire yields discriminant `id`;
`wire_length_get = some len` means a length-reader exists and decoding the
wire yields `len`. -/
structure Obj where
  version : Nat
  object_id : Nat
  length : Int
  obj_offset : Int
  owned : Bool
  hasWbuf : Bool
  wire_length_set : Option Int
  wire_type_set : Option (Int × Nat)
  wire_type_get : Option Nat
  wire_length_get : Option Int
deriving DecidableEq

/-- The all-zero object produced by `MEMSET(obj, 0, sizeof(*obj))`. -/
def zeroObj : Obj :=
  { version := 0, object_id := 0, length := 0, obj_offset := 0,
    owned := false, hasWbuf := false,
    wire_length_set := none, wire_type_set := none,
    wire_type_get := none, wire_length_get := none }

/-- Modelled from the spec: `of_wire_buffer_new(bytes)` allocates an owned,
zero-initialized region of capacity `bytes`; the logical extent is recorded by
the caller through growth and length updates. -/
def of_wire_buffer_new (bytes : Int) : WireBuffer :=
  { bytes := fun _ => 0, alloc_bytes := bytes, current_bytes := 0 }

/-- Modelled from the spec: `of_wire_buffer_grow(wbuf, tot)` ensures the
allocated capacity covers `tot` (preserving all previously written bytes) and
brings the current logical extent up to `tot`. -/
def of_wire_buffer_grow (wbuf : WireBuffer) (tot : Int) : WireBuffer :=
  { wbuf with alloc_bytes := max wbuf.alloc_bytes tot,
              current_bytes := max wbuf.current_bytes tot }

/-- Modelled from the spec: primitive byte write at an absolute offset. -/
def of_wire_buffer_u8_set (wbuf : WireBuffer) (off : Int) (v : Nat) : WireBuffer :=
  { wbuf with bytes := fun i => if i = off then v else wbuf.bytes i }

/-- Modelled from the spec: `of_wire_buffer_u32_set` writes a 32-bit value
big-endian at an absolute byte offset. -/
def of_wire_buffer_u32_set (wbuf : WireBuffer) (off : Int) (v : Nat) : WireBuffer :=
  { wbuf with bytes := fun i =>
      if i = off then v / 2 ^ 24 % 256
      else if i = off + 1 then v / 2 ^ 16 % 256
      else if i = off + 2 then v / 2 ^ 8 % 256
      else if i = off + 3 then v % 256
      else wbuf.bytes i }

/-- Modelled from the spec: `of_wire_buffer_u32_get` reads a 32-bit value
big-endian at an absolute byte offset. -/
def of_wire_buffer_u32_get (wbuf : WireBuffer) (off : Int) : Nat :=
  wbuf.bytes off * 2 ^ 24 + wbuf.bytes (off + 1) * 2 ^ 16 +
    wbuf.bytes (off + 2) * 2 ^ 8 + wbuf.bytes (off + 3)

/-- Modelled from the spec: `MEMCPY(dst + doff, src + soff, len)` between two
wire buffers. -/
def wire_memcpy (dstb : WireBuffer) (doff : Int) (srcb : WireBuffer)
    (soff len : Int) : WireBuffer :=
  { dstb with bytes := fun i =>
      if doff ≤ i ∧ i < doff + len then srcb.bytes (soff + (i - doff))
      else dstb.bytes i }

/-- Macro `OF_OBJECT_ABSOLUTE_OFFSET(obj, off)`: offset relative to the object start
translated to an absolute buffer offset. -/
def OF_OBJECT_ABSOLUTE_OFFSET (obj : Obj) (off : Int) : Int :=
  obj.obj_offset + off

/-- Function `of_object_can_grow` (of_object.c:306): room check against the buffer's
allocated capacity. -/
def of_object_can_grow (obj : Obj) (new_len : Int) (wbuf : WireBuffer) : Bool :=
  OF_OBJECT_ABSOLUTE_OFFSET obj new_len ≤ wbuf.alloc_bytes

/-- Function `object_child_attach` (of_object.c:266): point the child at the parent's
buffer at `parent.obj_offset + offset`; the child is marked non-owning.  If
`bytes > 0` the buffer is grown to `parent.obj_offset + offset + bytes` and
the child's length is set to `bytes`; otherwise nothing else changes.
Returns the updated child and the (possibly grown) shared buffer. -/
def object_child_attach (parent child : Obj) (offset bytes : Int)
    (wbuf : WireBuffer) : Obj × WireBuffer :=
  let child1 : Obj :=
    { child with obj_offset := parent.obj_offset + offset,
                 owned := false, hasWbuf := parent.hasWbuf }
  if bytes > 0 then
    let tot_bytes := parent.obj_offset + offset + bytes
    ({ child1 with length := bytes }, of_wire_buffer_grow wbuf tot_bytes)
  else
    (child1, wbuf)

/-- Constant `OF_MESSAGE_XID_OFFSET`: version-independent header offset of the xid. -/
def OF_MESSAGE_XID_OFFSET : Int := 4

/-- Function `of_object_xid_set` (of_object.c:322): param error when the object has no
bound wire buffer, else write the 32-bit xid at the fixed header offset. -/
def of_object_xid_set (obj : Obj) (wbuf : WireBuffer) (xid : Nat) :
    OfError × WireBuffer :=
  if ¬ obj.hasWbuf then (.param, wbuf)
  else (.ok, of_wire_buffer_u32_set wbuf
    (OF_OBJECT_ABSOLUTE_OFFSET obj OF_MESSAGE_XID_OFFSET) xid)

/-- Function `of_object_xid_get` (of_object.c:344): param error when the object has no
bound wire buffer (the out-parameter is untouched, modelled as `none`), else
read the 32-bit xid at the fixed header offset. -/
def of_object_xid_get (obj : Obj) (wbuf : WireBuffer) : OfError × Option Nat :=
  if ¬ obj.hasWbuf then (.param, none)
  else (.ok, some (of_wire_buffer_u32_get wbuf
    (OF_OBJECT_ABSOLUTE_OFFSET obj OF_MESSAGE_XID_OFFSET)))

/-- Observable effect of `of_object_delete` (of_object.c:59): whether the wire
buffer was freed and whether the object struct was freed. -/
structure DeleteEffect where
  freed_wbuf : Bool
  freed_obj : Bool
deriving DecidableEq

/-- Function `of_object_delete` (of_object.c:59): no-op on NULL; frees the wire buffer
only when the object owns it; always frees the object struct itself. -/
def of_object_delete : Option Obj → DeleteEffect
  | none => ⟨false, false⟩
  | some o => ⟨o.owned, true⟩

/-- Function `of_object_wire_buffer_steal` (of_object.c:524): hand the raw bytes to the
caller (modelled from the spec for `of_wire_buffer_steal`) and NULL out the
object's wire buffer pointer. -/
def of_object_wire_buffer_steal (obj : Obj) (wbuf : WireBuffer) :
    Obj × (Int → Nat) :=
  ({ obj with hasWbuf := false }, wbuf.bytes)

/-- Function `of_list_first` (of_object.c:459): range error on an empty list, else
attach the child at relative offset 0 with no reservation. -/
def of_list_first (parent child : Obj) (wbuf : WireBuffer) :
    OfError × Obj × WireBuffer :=
  if parent.length = 0 then (.range, child, wbuf)
  else
    let r := object_child_attach parent child 0 0 wbuf
    (.ok, r.1, r.2)

/-- Function `of_list_is_last` (of_object.c:479): the child is the last entry iff its
extent reaches the parent's extent. -/
def of_list_is_last (parent child : Obj) : Bool :=
  child.obj_offset + child.length ≥ parent.obj_offset + parent.length

/-- Function `of_list_next` (of_object.c:504): range error when the child is the last
entry; else re-attach the child at relative offset
`(child.obj_offset - parent.obj_offset) + child.length` with no reservation.
(`LOCI_ASSERT(child->length > 0)` is a debug-only precondition, reflected as a
hypothesis of the corresponding theorem.) -/
def of_list_next (parent child : Obj) (wbuf : WireBuffer) :
    OfError × Obj × WireBuffer :=
  if of_list_is_last parent child then (.range, child, wbuf)
  else
    let offset := (child.obj_offset - parent.obj_offset) + child.length
    let r := object_child_attach parent child offset 0 wbuf
    (.ok, r.1, r.2)

/-- Modelled from the spec: the generated length-writer (`wire_length_set`
function pointer), when present, persists the object's current length into the
wire bytes at the object's designated length-field cell. -/
def wire_length_persist (o : Obj) (wbuf : WireBuffer) : WireBuffer :=
  match o.wire_length_set with
  | none => wbuf
  | some rel =>
    { wbuf with bytes := fun i =>
        if i = o.obj_offset + rel then o.length.toNat else wbuf.bytes i }

/-- Modelled from the spec: the generated type-writer (`wire_type_set`
function pointer), when present, persists the object's type tag into the wire
bytes at the object's designated type-field cell. -/
def wire_type_persist (o : Obj) (wbuf : WireBuffer) : WireBuffer :=
  match o.wire_type_set with
  | none => wbuf
  | some (rel, tag) =>
    { wbuf with bytes := fun i =>
        if i = o.obj_offset + rel then tag else wbuf.bytes i }

/-- The absolute cell written by an object's length-writer, if any. -/
def objWriterCell (o : Obj) : List Int :=
  match o.wire_length_set with
  | some rel => [o.obj_offset + rel]
  | none => []

/-- All length-writer cells along a parent chain. -/
def writerCells : List Obj → List Int
  | [] => []
  | o :: rest => objWriterCell o ++ writerCells rest

/-- Function `of_object_parent_length_update` (of_object.c:543): walk the parent chain
(head = the object, last = root), add `delta` to each length and persist it
through the length-writer when present.  The debug asserts (depth bound and
length invariants) are reflected in the hypotheses of the corresponding
theorem. -/
def of_object_parent_length_update :
    List Obj → Int → WireBuffer → List Obj × WireBuffer
  | [], _, wbuf => ([], wbuf)
  | o :: rest, delta, wbuf =>
    let o1 : Obj := { o with length := o.length + delta }
    let wbuf1 := wire_length_persist o1 wbuf
    let r := of_object_parent_length_update rest delta wbuf1
    (o1 :: r.1, r.2)

/-- Result of `of_list_append_bind`: status, updated parent chain, updated
child, updated buffer. -/
structure AppendResult where
  err : OfError
  pchain : List Obj
  child : Option Obj
  wbuf : WireBuffer

/-- The child object as it stands after a successful `of_list_append_bind`:
attached at relative offset `parent.length` (its own length is unchanged,
since the attach reserves exactly `child.length` bytes). -/
def childAfterAppend (p c : Obj) : Obj :=
  { c with obj_offset := p.obj_offset + p.length,
           owned := false, hasWbuf := p.hasWbuf }

/-- Function `of_list_append_bind` (of_object.c:380): param error when the parent
pointer is NULL (empty chain), the child pointer is NULL, or the parent has no
bound buffer; resource error when the grown list would not fit the allocated
capacity; else attach the child at relative offset `parent.length` reserving
`child.length` bytes, persist the child's length and type tags when the
writers exist, and propagate the delta up the parent chain. -/
def of_list_append_bind (pchain : List Obj) (child : Option Obj)
    (wbuf : WireBuffer) : AppendResult :=
  match pchain, child with
  | [], _ => ⟨.param, pchain, child, wbuf⟩
  | _ :: _, none => ⟨.param, pchain, child, wbuf⟩
  | p :: anc, some c =>
    if ¬ p.hasWbuf then ⟨.param, p :: anc, some c, wbuf⟩
    else if ¬ of_object_can_grow p (p.length + c.length) wbuf then
      ⟨.resource, p :: anc, some c, wbuf⟩
    else
      let a := object_child_attach p c p.length c.length wbuf
      let c1 := a.1
      let wbuf1 := wire_length_persist c1 a.2
      let wbuf2 := wire_type_persist c1 wbuf1
      let r := of_object_parent_length_update (p :: anc) c.length wbuf2
      ⟨.ok, r.1, some c1, r.2⟩

/-- Function `of_object_buffer_bind` (of_object.c:214): `LOCI_ASSERT(buf != NULL)` and
`LOCI_ASSERT(bytes > 0)` abort fatally (before any mutation); otherwise the
wire object is cleared, a buffer binding the external bytes is created
(modelled from the spec for `of_wire_buffer_new_bind`, allocation assumed to
succeed), the object is marked owning and its length set to `bytes`. -/
def of_object_buffer_bind (obj : Obj) (buf : Option (Int → Nat)) (bytes : Int) :
    CResult (OfError × Obj × WireBuffer) :=
  match buf with
  | none => .fatal
  | some b =>
    if bytes ≤ 0 then .fatal
    else
      let cleared : Obj :=
        { obj with obj_offset := 0, owned := false, hasWbuf := false }
      let wbuf : WireBuffer :=
        { bytes := b, alloc_bytes := bytes, current_bytes := bytes }
      .ret (.ok, { cleared with hasWbuf := true, owned := true, length := bytes },
            wbuf)

/-- Function `of_object_wire_init` (of_object.c:587): if a type-reader exists, read the
discriminant, fail parse unless it is valid for `base_object_id`, else record
it and re-dispatch the registered initializer (`init_map`, external: called as
`init_map id version (-1)`).  Then, if a length-reader exists (possibly set by
the re-dispatch), fail parse when the decoded length is negative or exceeds a
positive `max_len`, else take it as the object's length; with no length-reader
fall back to the static fixed-length table `fixed_len version base_object_id`.
The redispatch step (of_object.c:597-599) records the discriminant read from
the wire and calls the registered initializer for it, with length argument -1
and push-to-wire flag 0. -/
def wire_init_redispatch (init_map : Nat → Nat → Int → Obj → Obj) (obj : Obj)
    (id : Nat) : Obj :=
  init_map id obj.version (-1) { obj with object_id := id }

/-- See `wire_init_redispatch` above: the body of `of_object_wire_init`. -/
def of_object_wire_init (valid : Nat → Nat → Bool)
    (init_map : Nat → Nat → Int → Obj → Obj) (fixed_len : Nat → Nat → Int)
    (obj : Obj) (base_object_id : Nat) (max_len : Int) : OfError × Obj :=
  let step :=
    match obj.wire_type_get with
    | some id =>
      if ¬ valid id base_object_id then none
      else some (wire_init_redispatch init_map obj id)
    | none => some obj
  match step with
  | none => (.parse, obj)
  | some obj1 =>
    match obj1.wire_length_get with
    | some len =>
      if len < 0 ∨ (max_len > 0 ∧ len > max_len) then (.parse, obj1)
      else (.ok, { obj1 with length := len })
    | none => (.ok, { obj1 with length := fixed_len obj1.version base_object_id })

/-- Function `of_object_dup` (of_object.c:87): zero a fresh object, allocate a minimal
owned buffer of exactly `src.length` bytes, re-apply the type initializer for
`src`'s discriminant (`init_map`, external: called as
`init_map src.object_id src.version src.length`), then copy `src.length` bytes
from `src`'s region to the duplicate's region.  `dupSeed` is the zeroed
object after the fresh buffer allocation marked it owning
(of_object.c:97-105). -/
def dupSeed : Obj := { zeroObj with owned := true, hasWbuf := true }

/-- See `dupSeed` above: the body of `of_object_dup`. -/
def of_object_dup (init_map : Nat → Nat → Int → Obj → Obj) (src : Obj)
    (srcbuf : WireBuffer) : Obj × WireBuffer :=
  let dwbuf := of_wire_buffer_new src.length
  let dst2 := init_map src.object_id src.version src.length dupSeed
  let dwbuf2 := wire_memcpy dwbuf dst2.obj_offset srcbuf src.obj_offset src.length
  (dst2, dwbuf2)

/-- A concrete buffer used by the concrete witness theorems. -/
def wb0 : WireBuffer := { bytes := fun _ => 0, alloc_bytes := 64, current_bytes := 16 }

/-- A concrete bound root object used by the concrete witness theorems. -/
def boundObj : Obj := { zeroObj with hasWbuf := true, length := 16 }

/-- A concrete empty list object used by the concrete witness theorems. -/
def sampleEmptyList : Obj := { zeroObj with hasWbuf := true, obj_offset := 8 }

/-- A concrete non-empty list object used by the concrete witness theorems. -/
def sampleList : Obj := { zeroObj with hasWbuf := true, obj_offset := 8, length := 8 }

/-- A concrete list element used by the concrete witness theorems. -/
def sampleElem : Obj := { zeroObj with length := 4, obj_offset := 8 }

/-- The absolute cell written by an object's type-writer, if any. -/
def objTypeCell (o : Obj) : List Int :=
  match o.wire_type_set with
  | some (rel, _) => [o.obj_offset + rel]
  | none => []

/-- A child element to be appended, with both a length-writer and a
type-writer, used by the concrete witness theorems. -/
def appObjC : Obj :=
  { zeroObj with
    length := 4, wire_length_set := some 2, wire_type_set := some (0, 7) }

/-- Whether a buffer-bind result is a normal return carrying OF_ERROR_PARAM. -/
def bindReturnsParam : CResult (OfError × Obj × WireBuffer) → Bool
  | .ret (.param, _, _) => true
  | _ => false

/-- An element object with a registered length-writer, used by the concrete
witness theorems for length propagation. -/
def wObjA : Obj :=
  { zeroObj with
    hasWbuf := true, obj_offset := 8, length := 8, wire_length_set := some 2 }

/-- A root object with a registered length-writer, used by the concrete
witness theorems for length propagation. -/
def wObjRoot : Obj :=
  { zeroObj with
    hasWbuf := true, obj_offset := 0, length := 16, wire_length_set := some 2 }

/-- A buffer already grown to hold a delta of 4 beyond `wObjRoot`'s extent,
used by the concrete witness theorems for length propagation. -/
def wbGrown : WireBuffer := { bytes := fun _ => 0, alloc_bytes := 64, current_bytes := 20 }

/-- A write through the source object's buffer in a (source, duplicate)
two-buffer world. -/
def dupWorldWriteSrc (s : WireBuffer × WireBuffer) (off : Int) (v : Nat) :
    WireBuffer × WireBuffer := (of_wire_buffer_u8_set s.1 off v, s.2)

/-- A write through the duplicate's buffer in a (source, duplicate)
two-buffer world. -/
def dupWorldWriteDup (s : WireBuffer × WireBuffer) (off : Int) (v : Nat) :
    WireBuffer × WireBuffer := (s.1, of_wire_buffer_u8_set s.2 off v)

/-- A buffer with a recognizable byte pattern, used as the duplication source
by the concrete witness theorems. -/
def wbPat : WireBuffer :=
  { bytes := fun i => i.toNat % 256, alloc_bytes := 32, current_bytes := 16 }

/-- A concrete stand-in for the generated initializer table, used by the
concrete witness theorems: records id, version and length and touches no
wire-object state. -/
def initMap0 : Nat → Nat → Int → Obj → Obj :=
  fun id v len o => { o with object_id := id, version := v, length := len }

/-- A concrete discriminant-validity predicate used by the concrete witness
theorems: the discriminant is valid exactly when it equals the base id. -/
def valid0 : Nat → Nat → Bool := fun id base => id == base

/-- A concrete fixed-length table used by the concrete witness theorems. -/
def fixedLen0 : Nat → Nat → Int := fun _ _ => 8

/-- A concrete initializer used by the wire-init witness theorem: installs a
length-reader that decodes length 12. -/
def initMap5 : Nat → Nat → Int → Obj → Obj :=
  fun id v _ o =>
    { o with object_id := id, version := v, wire_length_get := some 12 }

/-- A concrete object whose wire discriminant reads 5, used by the wire-init
witness theorem. -/
def wireObj5 : Obj := { zeroObj with wire_type_get := some 5 }

/-- The length-writer of an object does not move when only its length field
changes. -/
theorem objWriterCell_length_update (o : Obj) (x : Int) :
    objWriterCell { o with length := x } = objWriterCell o := rfl

/-- Persisting a length leaves the buffer's current extent unchanged. -/
theorem persist_current (o : Obj) (w : WireBuffer) :
    (wire_length_persist o w).current_bytes = w.current_bytes := by
  cases h : o.wire_length_set <;> simp [wire_length_persist, h]

/-- Persisting a length leaves bytes outside the object's writer cell
unchanged. -/
theorem persist_bytes_ne (o : Obj) (w : WireBuffer) (i : Int)
    (h : i ∉ objWriterCell o) :
    (wire_length_persist o w).bytes i = w.bytes i := by
  cases ho : o.wire_length_set with
  | none => simp [wire_length_persist, ho]
  | some rel =>
    have hne : i ≠ o.obj_offset + rel := by
      simpa [objWriterCell, ho] using h
    simp [wire_length_persist, ho, hne]

/-- Persisting a length stores the object's length at its writer cell. -/
theorem persist_bytes_eq (o : Obj) (w : WireBuffer) (rel : Int)
    (h : o.wire_length_set = some rel) :
    (wire_length_persist o w).bytes (o.obj_offset + rel) = o.length.toNat := by
  simp [wire_length_persist, h]

/-- The chain returned by length propagation is the input chain with every
length shifted by the delta. -/
theorem plu_fst (chain : List Obj) (delta : Int) :
    ∀ wbuf : WireBuffer,
      (of_object_parent_length_update chain delta wbuf).1 =
        chain.map fun o => { o with length := o.length + delta } := by
  induction chain with
  | nil => intro wbuf; rfl
  | cons o rest ih =>
    intro wbuf
    simp [of_object_parent_length_update, ih]

/-- Length propagation does not change the buffer's current extent. -/
theorem plu_current (chain : List Obj) (delta : Int) :
    ∀ wbuf : WireBuffer,
      (of_object_parent_length_update chain delta wbuf).2.current_bytes =
        wbuf.current_bytes := by
  induction chain with
  | nil => intro wbuf; rfl
  | cons o rest ih =>
    intro wbuf
    simp [of_object_parent_length_update, ih, persist_current]

/-- Length propagation leaves bytes outside the chain's writer cells
unchanged. -/
theorem plu_bytes_frame (chain : List Obj) (delta : Int) (i : Int) :
    ∀ wbuf : WireBuffer, i ∉ writerCells chain →
      (of_object_parent_length_update chain delta wbuf).2.bytes i =
        wbuf.bytes i := by
  induction chain with
  | nil => intro wbuf _; rfl
  | cons o rest ih =>
    intro wbuf h
    rw [writerCells] at h
    have h1 : i ∉ objWriterCell { o with length := o.length + delta } := by
      rw [objWriterCell_length_update]
      exact fun hc => h (List.mem_append.mpr (Or.inl hc))
    have h2 : i ∉ writerCells rest :=
      fun hc => h (List.mem_append.mpr (Or.inr hc))
    simp only [of_object_parent_length_update]
    rw [ih _ h2, persist_bytes_ne _ _ _ h1]

/-- When the chain's writer cells are pairwise distinct, length propagation
persists each member's updated length at its own writer cell. -/
theorem plu_persist (chain : List Obj) (delta : Int) :
    ∀ wbuf : WireBuffer, (writerCells chain).Nodup →
      ∀ o ∈ chain, ∀ rel, o.wire_length_set = some rel →
        (of_object_parent_length_update chain delta wbuf).2.bytes
          (o.obj_offset + rel) = (o.length + delta).toNat := by
  induction chain with
  | nil =>
    intro wbuf _ o ho
    simp at ho
  | cons p rest ih =>
    intro wbuf hnd o ho rel hrel
    rw [writerCells, List.nodup_append] at hnd
    rcases List.mem_cons.mp ho with rfl | ho'
    · have hmem : o.obj_offset + rel ∈ objWriterCell o := by
        simp [objWriterCell, hrel]
      have hcell : o.obj_offset + rel ∉ writerCells rest :=
        fun hc => hnd.2.2 hmem hc
      simp only [of_object_parent_length_update]
      rw [plu_bytes_frame rest delta _ _ hcell]
      exact persist_bytes_eq { o with length := o.length + delta } wbuf rel hrel
    · simp only [of_object_parent_length_update]
      exact ih _ hnd.2.1 o ho' rel hrel

/-- Taking `getLast?` commutes with `map` on object lists. -/
theorem getLast_map_obj (f : Obj → Obj) :
    ∀ l : List Obj, (l.map f).getLast? = l.getLast?.map f := by
  intro l
  induction l with
  | nil => rfl
  | cons a t ih =>
    cases t with
    | nil => rfl
    | cons b t' =>
      rw [List.map_cons, List.map_cons, List.getLast?_cons_cons,
          List.getLast?_cons_cons, ← List.map_cons]
      exact ih

/-- Claim C1: for a chain of depth at most 4 and positive delta,
`of_object_parent_length_update` adds the delta to the byte length of the
object and of every ancestor up to the root, persists each updated length
through the registered length-writers, and afterwards every object in the
chain satisfies `byte_offset + byte_length <= current_bytes` while the root
satisfies it with equality (the hypotheses record the state the caller must
have established by growing the buffer, exactly what the code's debug asserts
check; writer cells are assumed pairwise distinct, as distinct objects persist
their lengths at distinct wire locations). -/
theorem claim_C1_parent_length_update (chain : List Obj) (delta : Int)
    (wbuf : WireBuffer)
    (hdepth : chain.length ≤ 4) (hpos : 0 < delta)
    (hnd : (writerCells chain).Nodup)
    (hinv : ∀ o ∈ chain, o.obj_offset + o.length + delta ≤ wbuf.current_bytes)
    (hroot : ∀ o ∈ chain, chain.getLast? = some o →
      o.obj_offset + o.length + delta = wbuf.current_bytes) :
    (of_object_parent_length_update chain delta wbuf).1 =
      (chain.map fun o => { o with length := o.length + delta }) ∧
    (∀ o ∈ chain, ∀ rel, o.wire_length_set = some rel →
      (of_object_parent_length_update chain delta wbuf).2.bytes
        (o.obj_offset + rel) = (o.length + delta).toNat) ∧
    (∀ o ∈ (of_object_parent_length_update chain delta wbuf).1,
      o.obj_offset + o.length ≤
        (of_object_parent_length_update chain delta wbuf).2.current_bytes) ∧
    (∀ o, (of_object_parent_length_update chain delta wbuf).1.getLast? = some o →
      o.obj_offset + o.length =
        (of_object_parent_length_update chain delta wbuf).2.current_bytes) := by
  refine ⟨plu_fst chain delta wbuf, plu_persist chain delta wbuf hnd, ?_, ?_⟩
  · intro o ho
    rw [plu_fst] at ho
    rw [plu_current]
    obtain ⟨o0, ho0, rfl⟩ := List.mem_map.mp ho
    have := hinv o0 ho0
    simpa using by omega
  · intro o ho
    rw [plu_fst, getLast_map_obj] at ho
    rw [plu_current]
    cases hl : chain.getLast? with
    | none => rw [hl] at ho; simp at ho
    | some o0 =>
      rw [hl] at ho
      simp at ho
      have hmem : o0 ∈ chain := by
        have := List.mem_getLast?_eq_getLast (l := chain) (x := o0) (by rw [hl]; rfl)
        obtain ⟨hne, rfl⟩ := this
        exact List.getLast_mem hne
      have := hroot o0 hmem hl
      subst ho
      simpa using by omega

/-- Witness for claim C1 at a concrete two-level chain (element over root)
with delta 4 and a buffer pre-grown to 20 bytes. -/
theorem claim_C1_witness :
    (of_object_parent_length_update [wObjA, wObjRoot] 4 wbGrown).1 =
      ([wObjA, wObjRoot].map fun o => { o with length := o.length + 4 }) ∧
    (∀ o ∈ [wObjA, wObjRoot], ∀ rel, o.wire_length_set = some rel →
      (of_object_parent_length_update [wObjA, wObjRoot] 4 wbGrown).2.bytes
        (o.obj_offset + rel) = (o.length + 4).toNat) ∧
    (∀ o ∈ (of_object_parent_length_update [wObjA, wObjRoot] 4 wbGrown).1,
      o.obj_offset + o.length ≤
        (of_object_parent_length_update [wObjA, wObjRoot] 4 wbGrown).2.current_bytes) ∧
    (∀ o, (of_object_parent_length_update [wObjA, wObjRoot] 4 wbGrown).1.getLast? =
        some o →
      o.obj_offset + o.length =
        (of_object_parent_length_update [wObjA, wObjRoot] 4 wbGrown).2.current_bytes) :=
  claim_C1_parent_length_update [wObjA, wObjRoot] 4 wbGrown (by decide) (by decide)
    (by decide) (by decide) (by decide)

/-- The child produced by the append attach is exactly `childAfterAppend`. -/
theorem attach_child_eq (p c : Obj) (wbuf : WireBuffer) :
    (object_child_attach p c p.length c.length wbuf).1 = childAfterAppend p c := by
  unfold object_child_attach childAfterAppend
  by_cases h : c.length > 0 <;> simp [h]

/-- The append attach never changes the buffer's bytes (growth only extends
capacity). -/
theorem attach_child_bytes (p c : Obj) (wbuf : WireBuffer) :
    (object_child_attach p c p.length c.length wbuf).2.bytes = wbuf.bytes := by
  unfold object_child_attach of_wire_buffer_grow
  by_cases h : c.length > 0 <;> simp [h]

/-- The current extent of the buffer after the append attach. -/
theorem attach_child_current (p c : Obj) (wbuf : WireBuffer) :
    (object_child_attach p c p.length c.length wbuf).2.current_bytes =
      if 0 < c.length then
        max wbuf.current_bytes (p.obj_offset + p.length + c.length)
      else wbuf.current_bytes := by
  unfold object_child_attach of_wire_buffer_grow
  by_cases h : 0 < c.length <;> simp [h, gt_iff_lt]

/-- Persisting a type tag leaves the buffer's current extent unchanged. -/
theorem type_persist_current (o : Obj) (w : WireBuffer) :
    (wire_type_persist o w).current_bytes = w.current_bytes := by
  cases h : o.wire_type_set with
  | none => simp [wire_type_persist, h]
  | some pr => obtain ⟨rel, tag⟩ := pr; simp [wire_type_persist, h]

/-- Persisting a type tag leaves bytes outside the object's type cell
unchanged. -/
theorem type_persist_bytes_ne (o : Obj) (w : WireBuffer) (i : Int)
    (h : i ∉ objTypeCell o) :
    (wire_type_persist o w).bytes i = w.bytes i := by
  cases ho : o.wire_type_set with
  | none => simp [wire_type_persist, ho]
  | some pr =>
    obtain ⟨rel, tag⟩ := pr
    have hne : i ≠ o.obj_offset + rel := by
      simpa [objTypeCell, ho] using h
    simp [wire_type_persist, ho, hne]

/-- Persisting a type tag stores the tag at the object's type cell. -/
theorem type_persist_bytes_eq (o : Obj) (w : WireBuffer) (rel : Int) (tag : Nat)
    (h : o.wire_type_set = some (rel, tag)) :
    (wire_type_persist o w).bytes (o.obj_offset + rel) = tag := by
  simp [wire_type_persist, h]

/-- Claim C2: `of_list_append_bind` returns InvalidArgument when the parent is
NULL, the child is NULL, or the parent list has no bound buffer; returns
ResourceExhausted exactly when the `can_grow` pre-check fails, i.e. when
`parent.byte_offset + (parent.byte_length + child.byte_length)` exceeds the
buffer's allocated capacity; otherwise it attaches the child at relative
offset `parent.byte_length` reserving `child.byte_length` bytes, persists the
child's type and length tags through its accessor vtable when present,
propagates the delta up the parent chain, and returns Success.  (The
persistence conclusions assume the involved wire cells are pairwise distinct,
as they are for well-formed objects.) -/
theorem claim_C2_append_bind (p c : Obj) (anc : List Obj) (wbuf : WireBuffer)
    (hnd : (objWriterCell (childAfterAppend p c) ++
      objTypeCell (childAfterAppend p c) ++ writerCells (p :: anc)).Nodup) :
    (∀ ch w, of_list_append_bind [] ch w = ⟨.param, [], ch, w⟩) ∧
    (∀ q anc2 w, of_list_append_bind (q :: anc2) none w =
      ⟨.param, q :: anc2, none, w⟩) ∧
    (p.hasWbuf = false →
      of_list_append_bind (p :: anc) (some c) wbuf =
        ⟨.param, p :: anc, some c, wbuf⟩) ∧
    (p.hasWbuf = true →
      ¬ (p.obj_offset + (p.length + c.length) ≤ wbuf.alloc_bytes) →
      of_list_append_bind (p :: anc) (some c) wbuf =
        ⟨.resource, p :: anc, some c, wbuf⟩) ∧
    (p.hasWbuf = true →
      p.obj_offset + (p.length + c.length) ≤ wbuf.alloc_bytes →
      (of_list_append_bind (p :: anc) (some c) wbuf).err = .ok ∧
      (of_list_append_bind (p :: anc) (some c) wbuf).child =
        some (childAfterAppend p c) ∧
      (childAfterAppend p c).obj_offset = p.obj_offset + p.length ∧
      (childAfterAppend p c).length = c.length ∧
      (of_list_append_bind (p :: anc) (some c) wbuf).pchain =
        ((p :: anc).map fun o => { o with length := o.length + c.length }) ∧
      (0 < c.length →
        (of_list_append_bind (p :: anc) (some c) wbuf).wbuf.current_bytes =
          max wbuf.current_bytes (p.obj_offset + p.length + c.length)) ∧
      (∀ rel, c.wire_length_set = some rel →
        (of_list_append_bind (p :: anc) (some c) wbuf).wbuf.bytes
          (p.obj_offset + p.length + rel) = c.length.toNat) ∧
      (∀ rel tag, c.wire_type_set = some (rel, tag) →
        (of_list_append_bind (p :: anc) (some c) wbuf).wbuf.bytes
          (p.obj_offset + p.length + rel) = tag) ∧
      (∀ o ∈ p :: anc, ∀ rel, o.wire_length_set = some rel →
        (of_list_append_bind (p :: anc) (some c) wbuf).wbuf.bytes
          (o.obj_offset + rel) = (o.length + c.length).toNat)) := by
  rw [List.append_assoc, List.nodup_append] at hnd
  obtain ⟨hndL, hndR, hdisL⟩ := hnd
  rw [List.nodup_append] at hndR
  obtain ⟨hndT, hndC, hdisT⟩ := hndR
  refine ⟨fun ch w => rfl, fun q anc2 w => rfl, ?_, ?_, ?_⟩
  · intro hw
    simp [of_list_append_bind, hw]
  · intro hw hg
    have hcg : of_object_can_grow p (p.length + c.length) wbuf = false := by
      simp [of_object_can_grow, OF_OBJECT_ABSOLUTE_OFFSET]
      omega
    simp [of_list_append_bind, hw, hcg]
  · intro hw hg
    have hcg : of_object_can_grow p (p.length + c.length) wbuf = true := by
      simp [of_object_can_grow, OF_OBJECT_ABSOLUTE_OFFSET]
      omega
    simp only [of_list_append_bind, hw, hcg, Bool.not_true, not_false_iff,
      if_false, Bool.not_false, if_true, ite_false, ite_true, not_true,
      false_and, attach_child_eq]
    refine ⟨?_, ?_, rfl, rfl, ?_, ?_, ?_, ?_, ?_⟩
    · simp
    · simp
    · simp [plu_fst]
    · intro hc
      simp [plu_current, type_persist_current, persist_current,
        attach_child_current, hc]
    · intro rel hrel
      have hca : (childAfterAppend p c).wire_length_set = some rel := hrel
      have hmem : p.obj_offset + p.length + rel ∈
          objWriterCell (childAfterAppend p c) := by
        simp [objWriterCell, childAfterAppend, hrel]
      have hnotT : p.obj_offset + p.length + rel ∉
          objTypeCell (childAfterAppend p c) := by
        intro hin
        exact hdisL hmem (List.mem_append.mpr (Or.inl hin))
      have hnotC : p.obj_offset + p.length + rel ∉ writerCells (p :: anc) := by
        intro hin
        exact hdisL hmem (List.mem_append.mpr (Or.inr hin))
      rw [plu_bytes_frame _ _ _ _ hnotC, type_persist_bytes_ne _ _ _ hnotT]
      have := persist_bytes_eq (childAfterAppend p c)
        (object_child_attach p c p.length c.length wbuf).2 rel hca
      simpa [childAfterAppend] using this
    · intro rel tag hrel
      have hca : (childAfterAppend p c).wire_type_set = some (rel, tag) := hrel
      have hmem : p.obj_offset + p.length + rel ∈
          objTypeCell (childAfterAppend p c) := by
        simp [objTypeCell, childAfterAppend, hrel]
      have hnotC : p.obj_offset + p.length + rel ∉ writerCells (p :: anc) := by
        intro hin
        exact hdisT hmem hin
      rw [plu_bytes_frame _ _ _ _ hnotC]
      have := type_persist_bytes_eq (childAfterAppend p c)
        (wire_length_persist (childAfterAppend p c)
          (object_child_attach p c p.length c.length wbuf).2) rel tag hca
      simpa [childAfterAppend] using this
    · intro o ho rel hrel
      exact plu_persist (p :: anc) c.length _ hndC o ho rel hrel

/-- Witness for claim C2 at concrete inputs: appending an element with
length- and type-writers to a two-level list inside a 64-byte buffer. -/
theorem claim_C2_witness :
    (of_list_append_bind (wObjA :: [wObjRoot]) (some appObjC) wb0).err = .ok ∧
    (of_list_append_bind (wObjA :: [wObjRoot]) (some appObjC) wb0).child =
      some (childAfterAppend wObjA appObjC) ∧
    (childAfterAppend wObjA appObjC).obj_offset =
      wObjA.obj_offset + wObjA.length ∧
    (childAfterAppend wObjA appObjC).length = appObjC.length ∧
    (of_list_append_bind (wObjA :: [wObjRoot]) (some appObjC) wb0).pchain =
      ((wObjA :: [wObjRoot]).map fun o =>
        { o with length := o.length + appObjC.length }) ∧
    (0 < appObjC.length →
      (of_list_append_bind (wObjA :: [wObjRoot]) (some appObjC) wb0).wbuf.current_bytes =
        max wb0.current_bytes (wObjA.obj_offset + wObjA.length + appObjC.length)) ∧
    (∀ rel, appObjC.wire_length_set = some rel →
      (of_list_append_bind (wObjA :: [wObjRoot]) (some appObjC) wb0).wbuf.bytes
        (wObjA.obj_offset + wObjA.length + rel) = appObjC.length.toNat) ∧
    (∀ rel tag, appObjC.wire_type_set = some (rel, tag) →
      (of_list_append_bind (wObjA :: [wObjRoot]) (some appObjC) wb0).wbuf.bytes
        (wObjA.obj_offset + wObjA.length + rel) = tag) ∧
    (∀ o ∈ wObjA :: [wObjRoot], ∀ rel, o.wire_length_set = some rel →
      (of_list_append_bind (wObjA :: [wObjRoot]) (some appObjC) wb0).wbuf.bytes
        (o.obj_offset + rel) = (o.length + appObjC.length).toNat) :=
  (claim_C2_append_bind wObjA appObjC [wObjRoot] wb0 (by decide)).2.2.2.2 rfl
    (by decide)

/-- Claim C7: `of_list_first` on a parent list with `byte_length == 0` returns
OutOfRange and does not modify the child object in any way; on a non-empty
list it attaches the child at relative offset 0 with no space reservation and
returns Success. -/
theorem claim_C7_list_first (parent child : Obj) (wbuf : WireBuffer) :
    (parent.length = 0 →
      of_list_first parent child wbuf = (.range, child, wbuf)) ∧
    (parent.length ≠ 0 →
      of_list_first parent child wbuf =
        (.ok, { child with obj_offset := parent.obj_offset, owned := false,
                           hasWbuf := parent.hasWbuf }, wbuf)) := by
  constructor <;> intro h <;>
    simp [of_list_first, object_child_attach, h]

/-- Witness for claim C7 at concrete inputs: an empty list and a non-empty
list. -/
theorem claim_C7_witness :
    of_list_first sampleEmptyList sampleElem wb0 = (.range, sampleElem, wb0) ∧
    of_list_first sampleList sampleElem wb0 =
      (.ok, { sampleElem with obj_offset := sampleList.obj_offset, owned := false,
                              hasWbuf := sampleList.hasWbuf }, wb0) :=
  ⟨(claim_C7_list_first sampleEmptyList sampleElem wb0).1 rfl,
   (claim_C7_list_first sampleList sampleElem wb0).2 (by decide)⟩

/-- Claim C9: every child produced by `object_child_attach` is marked
non-owning, shares the parent's buffer pointer, sits at
`parent.byte_offset + relative_offset`, and deleting it never frees the shared
wire buffer (only the child struct). -/
theorem claim_C9_child_nonowning (parent child : Obj) (offset bytes : Int)
    (wbuf : WireBuffer) :
    (object_child_attach parent child offset bytes wbuf).1.owned = false ∧
    (object_child_attach parent child offset bytes wbuf).1.obj_offset =
      parent.obj_offset + offset ∧
    (object_child_attach parent child offset bytes wbuf).1.hasWbuf =
      parent.hasWbuf ∧
    of_object_delete (some (object_child_attach parent child offset bytes wbuf).1) =
      ⟨false, true⟩ := by
  unfold object_child_attach
  by_cases h : bytes > 0 <;> simp [h, of_object_delete]

/-- Claim C10: after `of_object_wire_buffer_steal` the object's wire buffer
reference is NULL, so any subsequent xid access on that object returns
InvalidArgument without touching the bytes. -/
theorem claim_C10_steal_unbinds (obj : Obj) (wbuf w : WireBuffer) (v : Nat) :
    of_object_xid_set (of_object_wire_buffer_steal obj wbuf).1 w v = (.param, w) ∧
    of_object_xid_get (of_object_wire_buffer_steal obj wbuf).1 w = (.param, none) := by
  simp [of_object_wire_buffer_steal, of_object_xid_set, of_object_xid_get]

/-- Claim C3 as stated is false at a concrete input: `of_object_buffer_bind`
with a NULL buffer does not return InvalidArgument — it trips a fatal
`LOCI_ASSERT` before returning any status. -/
theorem claim_C3_counterexample :
    of_object_buffer_bind zeroObj none 8 = .fatal ∧
    bindReturnsParam (of_object_buffer_bind zeroObj none 8) = false := by
  constructor <;> rfl

/-- Claim C3 amended: `of_object_buffer_bind` called with a NULL buffer
pointer or with `length <= 0` aborts on a fatal assertion (no status is
returned and the target object is not modified, since the assertions precede
any mutation), rather than returning InvalidArgument. -/
theorem claim_C3_amended_assert (obj : Obj) (buf : Option (Int → Nat))
    (bytes : Int) (h : buf = none ∨ bytes ≤ 0) :
    of_object_buffer_bind obj buf bytes = .fatal := by
  rcases h with h | h
  · subst h; rfl
  · cases buf with
    | none => rfl
    | some b => simp [of_object_buffer_bind, h]

/-- Witness for the amended claim C3 at concrete inputs: a NULL buffer, and a
non-NULL buffer with length 0. -/
theorem claim_C3_amended_witness :
    of_object_buffer_bind zeroObj none 8 = .fatal ∧
    of_object_buffer_bind zeroObj (some fun _ => 0) 0 = .fatal :=
  ⟨claim_C3_amended_assert zeroObj none 8 (Or.inl rfl),
   claim_C3_amended_assert zeroObj (some fun _ => 0) 0 (Or.inr (by decide))⟩

/-- Claim C4: for `child.byte_length > 0`, `of_list_next` returns OutOfRange
exactly when `child.byte_offset + child.byte_length >=
parent.byte_offset + parent.byte_length`; otherwise it re-attaches the child
so that its new absolute offset is its old offset plus its old length, with no
space reservation, and returns Success. -/
theorem claim_C4_list_next (parent child : Obj) (wbuf : WireBuffer)
    (h : 0 < child.length) :
    ((of_list_next parent child wbuf).1 = .range ↔
      child.obj_offset + child.length ≥ parent.obj_offset + parent.length) ∧
    (child.obj_offset + child.length < parent.obj_offset + parent.length →
      of_list_next parent child wbuf =
        (.ok, { child with obj_offset := child.obj_offset + child.length,
                           owned := false, hasWbuf := parent.hasWbuf }, wbuf)) := by
  constructor
  · by_cases hl : child.obj_offset + child.length ≥
        parent.obj_offset + parent.length
    · simp [of_list_next, of_list_is_last, hl]
    · simp [of_list_next, of_list_is_last, object_child_attach, hl]
  · intro hlt
    have hl : ¬ (child.obj_offset + child.length ≥
        parent.obj_offset + parent.length) := by omega
    simp [of_list_next, of_list_is_last, object_child_attach, hl]
    omega

/-- Witness for claim C4 at concrete inputs: an element of length 4 at the
start of a list of length 8 (not last, so the iterator advances by 4). -/
theorem claim_C4_witness :
    ((of_list_next sampleList sampleElem wb0).1 = .range ↔
      sampleElem.obj_offset + sampleElem.length ≥
        sampleList.obj_offset + sampleList.length) ∧
    (sampleElem.obj_offset + sampleElem.length <
        sampleList.obj_offset + sampleList.length →
      of_list_next sampleList sampleElem wb0 =
        (.ok, { sampleElem with
                  obj_offset := sampleElem.obj_offset + sampleElem.length,
                  owned := false, hasWbuf := sampleList.hasWbuf }, wb0)) :=
  claim_C4_list_next sampleList sampleElem wb0 (by decide)

/-- Big-endian 32-bit write/read round trip on the wire buffer. -/
theorem u32_set_get (wbuf : WireBuffer) (off : Int) (v : Nat)
    (hv : v < 2 ^ 32) :
    of_wire_buffer_u32_get (of_wire_buffer_u32_set wbuf off v) off = v := by
  have e1 : (off + 1 : Int) ≠ off := by omega
  have e2 : (off + 2 : Int) ≠ off := by omega
  have e2' : (off + 2 : Int) ≠ off + 1 := by omega
  have e3 : (off + 3 : Int) ≠ off := by omega
  have e3' : (off + 3 : Int) ≠ off + 1 := by omega
  have e3'' : (off + 3 : Int) ≠ off + 2 := by omega
  simp [of_wire_buffer_u32_get, of_wire_buffer_u32_set, e1, e2, e2', e3, e3', e3'']
  omega

/-- Claim C8: on an object with a bound buffer, `xid_set` then `xid_get`
returns the stored 32-bit value; on an object with no bound buffer both
return InvalidArgument and leave the buffer untouched. -/
theorem claim_C8_xid_roundtrip (obj : Obj) (wbuf : WireBuffer) (v : Nat) :
    (obj.hasWbuf = true → v < 2 ^ 32 →
      (of_object_xid_set obj wbuf v).1 = .ok ∧
      of_object_xid_get obj (of_object_xid_set obj wbuf v).2 = (.ok, some v)) ∧
    (obj.hasWbuf = false →
      of_object_xid_set obj wbuf v = (.param, wbuf) ∧
      of_object_xid_get obj wbuf = (.param, none)) := by
  constructor
  · intro hb hv
    simp [of_object_xid_set, of_object_xid_get, hb, u32_set_get _ _ _ hv]
  · intro hb
    simp [of_object_xid_set, of_object_xid_get, hb]

/-- Witness for claim C8 at concrete inputs: storing xid 305419896 in a bound
object and reading it back. -/
theorem claim_C8_witness :
    (of_object_xid_set boundObj wb0 305419896).1 = .ok ∧
    of_object_xid_get boundObj (of_object_xid_set boundObj wb0 305419896).2 =
      (.ok, some 305419896) :=
  (claim_C8_xid_roundtrip boundObj wb0 305419896).1 rfl (by norm_num)

/-- Claim C5: `of_object_wire_init` returns ParseError when the discriminant
read from the wire is not valid for the expected family; when the discriminant
is valid it re-dispatches the type initializer for the concrete discriminant
and then reads the object's length: if a length accessor exists (after the
re-dispatch) it returns ParseError when the decoded length is negative or
exceeds a positive `max_length` and otherwise sets the object's byte length
from it; with no length accessor the byte length is taken from the static
fixed-length table indexed by protocol version and expected family. -/
theorem claim_C5_wire_init (valid : Nat → Nat → Bool)
    (init_map : Nat → Nat → Int → Obj → Obj) (fixed_len : Nat → Nat → Int)
    (obj : Obj) (base_object_id : Nat) (max_len : Int) (id : Nat)
    (hget : obj.wire_type_get = some id) :
    (valid id base_object_id = false →
      of_object_wire_init valid init_map fixed_len obj base_object_id max_len =
        (.parse, obj)) ∧
    (valid id base_object_id = true →
      (∀ len, (wire_init_redispatch init_map obj id).wire_length_get = some len →
        ((len < 0 ∨ (max_len > 0 ∧ len > max_len)) →
          of_object_wire_init valid init_map fixed_len obj base_object_id
            max_len = (.parse, wire_init_redispatch init_map obj id)) ∧
        (¬ (len < 0 ∨ (max_len > 0 ∧ len > max_len)) →
          of_object_wire_init valid init_map fixed_len obj base_object_id
            max_len =
            (.ok, { wire_init_redispatch init_map obj id with
                    length := len }))) ∧
      ((wire_init_redispatch init_map obj id).wire_length_get = none →
        of_object_wire_init valid init_map fixed_len obj base_object_id
          max_len =
          (.ok, { wire_init_redispatch init_map obj id with
                  length := fixed_len
                    (wire_init_redispatch init_map obj id).version
                    base_object_id }))) := by
  constructor
  · intro hv
    simp [of_object_wire_init, hget, hv]
  · intro hv
    refine ⟨fun len hlen => ⟨fun hbad => ?_, fun hgood => ?_⟩, fun hnone => ?_⟩
    · simp [of_object_wire_init, hget, hv, hlen, hbad]
    · simp [of_object_wire_init, hget, hv, hlen, hgood]
    · simp [of_object_wire_init, hget, hv, hnone]

/-- Witness for claim C5 at concrete inputs: a valid discriminant 5 whose
re-dispatched initializer installs a length-reader decoding 12, within a
max length of 64. -/
theorem claim_C5_witness :
    of_object_wire_init valid0 initMap5 fixedLen0 wireObj5 5 64 =
      (.ok, { wire_init_redispatch initMap5 wireObj5 5 with length := 12 }) :=
  (((claim_C5_wire_init valid0 initMap5 fixedLen0 wireObj5 5 64 5 rfl).2
    rfl).1 12 rfl).2 (by decide)

/-- Claim C6: `of_object_dup` allocates the duplicate's buffer sized exactly
to `src.byte_length` (not src's full capacity), re-applies the type
initializer for src's discriminant, and copies exactly `src.byte_length`
bytes from src's region to offset 0 of the new buffer, so immediately after
duplication the two objects' first `src.byte_length` bytes are identical; the
duplicate is an independent owning root whose buffer is a fresh allocation
(its bytes outside the copied region are those of the zeroed allocation), so
mutating either object's bytes never changes the other's (in this embedding
the two buffers are separate values by construction, exactly because `dup`
allocates instead of sharing as `object_child_attach` does).  The hypothesis
reflects that the generated initializers do not touch the wire-object state
(offset, ownership, buffer pointer). -/
theorem claim_C6_dup (init_map : Nat → Nat → Int → Obj → Obj) (src : Obj)
    (srcbuf : WireBuffer)
    (hpres : ∀ id v l o, (init_map id v l o).obj_offset = o.obj_offset ∧
      (init_map id v l o).owned = o.owned ∧
      (init_map id v l o).hasWbuf = o.hasWbuf) :
    (of_object_dup init_map src srcbuf).2.alloc_bytes = src.length ∧
    (∀ i : Int, 0 ≤ i → i < src.length →
      (of_object_dup init_map src srcbuf).2.bytes i =
        srcbuf.bytes (src.obj_offset + i)) ∧
    (∀ i : Int, i < 0 ∨ src.length ≤ i →
      (of_object_dup init_map src srcbuf).2.bytes i = 0) ∧
    (of_object_dup init_map src srcbuf).1.owned = true ∧
    (of_object_dup init_map src srcbuf).1.hasWbuf = true ∧
    (of_object_dup init_map src srcbuf).1.obj_offset = 0 ∧
    (∀ off v,
      (dupWorldWriteDup (srcbuf, (of_object_dup init_map src srcbuf).2) off v).1 =
        srcbuf ∧
      (dupWorldWriteSrc (srcbuf, (of_object_dup init_map src srcbuf).2) off v).2 =
        (of_object_dup init_map src srcbuf).2) := by
  obtain ⟨ho, hw, hb⟩ := hpres src.object_id src.version src.length dupSeed
  have ho0 : (init_map src.object_id src.version src.length dupSeed).obj_offset = 0 := by
    rw [ho]; rfl
  have hw0 : (init_map src.object_id src.version src.length dupSeed).owned = true := by
    rw [hw]; rfl
  have hb0 : (init_map src.object_id src.version src.length dupSeed).hasWbuf = true := by
    rw [hb]; rfl
  refine ⟨?_, ?_, ?_, ?_, ?_, ?_, ?_⟩
  · simp [of_object_dup, wire_memcpy, of_wire_buffer_new]
  · intro i h0 hlt
    simp [of_object_dup, wire_memcpy, of_wire_buffer_new, ho0, h0, hlt]
  · intro i hout
    have hc : ¬ ((0 : Int) ≤ i ∧ i < src.length) := by omega
    simp [of_object_dup, wire_memcpy, of_wire_buffer_new, ho0, hc]
  · simpa [of_object_dup] using hw0
  · simpa [of_object_dup] using hb0
  · simpa [of_object_dup] using ho0
  · intro off v
    exact ⟨rfl, rfl⟩

/-- Witness for claim C6 at concrete inputs: duplicating a 16-byte object out
of a patterned 32-byte source buffer. -/
theorem claim_C6_witness :
    (of_object_dup initMap0 boundObj wbPat).2.alloc_bytes = boundObj.length ∧
    (∀ i : Int, 0 ≤ i → i < boundObj.length →
      (of_object_dup initMap0 boundObj wbPat).2.bytes i =
        wbPat.bytes (boundObj.obj_offset + i)) ∧
    (∀ i : Int, i < 0 ∨ boundObj.length ≤ i →
      (of_object_dup initMap0 boundObj wbPat).2.bytes i = 0) ∧
    (of_object_dup initMap0 boundObj wbPat).1.owned = true ∧
    (of_object_dup initMap0 boundObj wbPat).1.hasWbuf = true ∧
    (of_object_dup initMap0 boundObj wbPat).1.obj_offset = 0 ∧
    (∀ off v,
      (dupWorldWriteDup (wbPat, (of_object_dup initMap0 boundObj wbPat).2) off v).1 =
        wbPat ∧
      (dupWorldWriteSrc (wbPat, (of_object_dup initMap0 boundObj wbPat).2) off v).2 =
        (of_object_dup initMap0 boundObj wbPat).2) :=
  claim_C6_dup initMap0 boundObj wbPat
    (fun id v l o => ⟨rfl, rfl, rfl⟩)

end OfObject
